import Mathlib

/-!
Verification development for the IntelliClass classroom application.

The TypeScript sources are shallowly embedded here:
* strings are modelled as `List Char` (`Str`), mirroring JavaScript's
  sequence-of-code-units strings;
* external collaborators (the Gemini/Groq HTTP endpoints, the Tesseract/PDF.js
  OCR libraries, and JavaScript builtins such as `JSON.parse` and `Number`
  string coercion) are modelled as explicit parameters ("oracles") holding the
  outcome of the single call the code makes to them;
* fallible code returns `Except`/`Option`; invocation counts that the claims
  talk about are threaded explicitly in small trace structures.
-/

/-- JavaScript strings are modelled as lists of characters. -/
abbrev Str := List Char

/-- Character-level whitespace test used by the model of `String.prototype.trim`. -/
def isWS (c : Char) : Bool := c.isWhitespace

/-- Model of trimming leading whitespace. -/
def trimLeftL (l : Str) : Str := l.dropWhile isWS

/-- Model of trimming trailing whitespace. -/
def trimRightL (l : Str) : Str := (l.reverse.dropWhile isWS).reverse

/-- Model of JavaScript `String.prototype.trim` (both ends). -/
def trimL (l : Str) : Str := trimRightL (trimLeftL l)

/-- Model of JavaScript `String.prototype.includes`: substring containment. -/
def containsSub (s pat : Str) : Bool := decide (pat <:+: s)

/-- Model of JavaScript `Array.prototype.includes` on string arrays. -/
def includes (l : List Str) (s : Str) : Bool := decide (s ∈ l)

/-- Model of `String.prototype.toLowerCase` (ASCII-relevant part). -/
def lowerStr (s : Str) : Str := s.map Char.toLower

/-! ## Fallback orchestrator (`generateWithFallback` in the AI service module) -/

/-- The quota / rate-limit / model-unavailable classification of a Gemini error
message, from the source:
`isQuotaError = message.includes('quota') || includes('429') || includes('rate')
|| includes('Resource has been exhausted') || includes('not found') || includes('not supported')`. -/
def isQuotaError (msg : Str) : Bool :=
  containsSub msg "quota".data || containsSub msg "429".data ||
  containsSub msg "rate".data || containsSub msg "Resource has been exhausted".data ||
  containsSub msg "not found".data || containsSub msg "not supported".data

/-- The combined error message built in the quota-classified dual-failure branch:
`Both AI providers failed. Gemini: <g>, Groq: <q>`. -/
def bothFailedMsg (g q : Str) : Str :=
  "Both AI providers failed. Gemini: ".data ++ g ++ ", Groq: ".data ++ q

/-- Result of one `generateWithFallback` call together with how many times each
provider was attempted during the call. -/
structure FallbackTrace where
  result : Except Str Str
  geminiCalls : Nat
  groqCalls : Nat
deriving Repr

/-- Shallow embedding of `generateWithFallback`.  The two oracle arguments hold
the outcome of the (at most one) call made to each provider: Gemini is attempted
first; on any Gemini failure Groq is attempted (the source has two textually
distinct fallback branches guarded by `isQuotaError`, but both call Groq once);
on dual failure the surfaced error is the combined message when the Gemini error
was quota-classified and the original Gemini error otherwise. -/
def generateWithFallback (gemini groq : Except Str Str) : FallbackTrace :=
  match gemini with
  | Except.ok text => ⟨Except.ok text, 1, 0⟩
  | Except.error geminiError =>
    match groq with
    | Except.ok groqResponse => ⟨Except.ok groqResponse, 1, 1⟩
    | Except.error groqError =>
      if isQuotaError geminiError then
        ⟨Except.error (bothFailedMsg geminiError groqError), 1, 1⟩
      else
        ⟨Except.error geminiError, 1, 1⟩

/-! ## JSON response normalization (`gradeSubmission` in the AI service module) -/

/-- JSON values as produced by the JavaScript builtin `JSON.parse`. -/
inductive JsonVal where
  | jnull : JsonVal
  | jbool : Bool → JsonVal
  | jnum : Rat → JsonVal
  | jstr : Str → JsonVal
  | jarr : List JsonVal → JsonVal
  | jobj : List (Str × JsonVal) → JsonVal

/-- Association-list lookup for object fields (`JSON.parse` output has unique keys). -/
def lookupField : List (Str × JsonVal) → Str → Option JsonVal
  | [], _ => none
  | (k', v) :: rest, k => if k' = k then some v else lookupField rest k

/-- JavaScript property access `obj.k`: `none` models `undefined` (missing field
or access on a non-object primitive, which yields `undefined` in JavaScript). -/
def getField (v : JsonVal) (k : Str) : Option JsonVal :=
  match v with
  | JsonVal.jobj fields => lookupField fields k
  | _ => none

/-- JavaScript truthiness of a JSON value: `null`, `false`, `0` and `""` are
falsy; arrays and objects are always truthy. -/
def truthy : JsonVal → Bool
  | JsonVal.jnull => false
  | JsonVal.jbool b => b
  | JsonVal.jnum q => decide (q ≠ 0)
  | JsonVal.jstr s => decide (s ≠ [])
  | JsonVal.jarr _ => true
  | JsonVal.jobj _ => true

/-- JavaScript `x || y` where `x` may be `undefined` (`none`): yields `x` when
`x` is defined and truthy, otherwise `y`. -/
def jsOrV (x : Option JsonVal) (y : JsonVal) : JsonVal :=
  match x with
  | some v => if truthy v then v else y
  | none => y

/-- JavaScript `Number(v)` coercion.  `null`, booleans and numbers are handled
concretely; coercion of strings, arrays and objects is a JavaScript-builtin
behavior modelled by the `coerce` oracle.  `none` models `NaN`. -/
def jsNumber (coerce : JsonVal → Option Rat) : JsonVal → Option Rat
  | JsonVal.jnull => some 0
  | JsonVal.jbool b => some (if b then 1 else 0)
  | JsonVal.jnum q => some q
  | v => coerce v

/-- Test for the JSON `null` value (property access on `null` throws in JavaScript). -/
def isNull : JsonVal → Bool
  | JsonVal.jnull => true
  | _ => false

/-- The three-backtick fence marker. -/
def ticks : Str := "```".data

/-- The fence marker with a `json` language tag. -/
def ticksJson : Str := "```json".data

/-- The markdown-fence cleanup in `gradeSubmission`: trim, drop a leading
"```json" (7 chars) or "```" (3 chars), drop a trailing "```" (slice(0,-3)),
trim again. -/
def cleanFences (gradingResult : Str) : Str :=
  let c0 := trimL gradingResult
  let c1 :=
    if List.isPrefixOf ticksJson c0 then c0.drop 7
    else if List.isPrefixOf ticks c0 then c0.drop 3
    else c0
  let c2 := if List.isSuffixOf ticks c1 then c1.take (c1.length - 3) else c1
  trimL c2

/-- The record returned by `gradeSubmission`.  The constant `success`/`message`
fields of the source record are elided; `strengths`/`improvements` are `none`
in the parse-failure branch, where the source record omits those keys. -/
structure GradeResult where
  grade : Option Rat
  feedback : JsonVal
  strengths : Option JsonVal
  improvements : Option JsonVal
  final_marks : Option Rat
  review : JsonVal

/-- The degraded result built when JSON parsing of the provider text fails:
`grade = 0` and the raw provider text as feedback. -/
def textFallbackResult (gradingResult : Str) : GradeResult :=
  { grade := some 0, feedback := JsonVal.jstr gradingResult,
    strengths := none, improvements := none,
    final_marks := some 0, review := JsonVal.jstr gradingResult }

/-- Shallow embedding of the response-normalization part of `gradeSubmission`:
clean markdown fences, `JSON.parse` (the `parse` oracle models the builtin;
`none` is a parse exception), then extract
`grade || marks || final_marks || score || 0` and
`feedback || review || comments || 'No feedback provided'` with JavaScript
`||` semantics, coercing the grade through `Number`.  A parsed `null` value is
routed to the degraded branch because `null.grade` throws a `TypeError` that
the source catches in the same `catch (parseError)` handler.  Prompt assembly
and the provider call that precede this post-processing are not modelled. -/
def gradeSubmission (parse : Str → Option JsonVal) (coerce : JsonVal → Option Rat)
    (gradingResult : Str) : GradeResult :=
  match parse (cleanFences gradingResult) with
  | none => textFallbackResult gradingResult
  | some parsedResult =>
    if isNull parsedResult then textFallbackResult gradingResult
    else
      let grade := jsOrV (getField parsedResult "grade".data)
        (jsOrV (getField parsedResult "marks".data)
          (jsOrV (getField parsedResult "final_marks".data)
            (jsOrV (getField parsedResult "score".data) (JsonVal.jnum 0))))
      let feedback := jsOrV (getField parsedResult "feedback".data)
        (jsOrV (getField parsedResult "review".data)
          (jsOrV (getField parsedResult "comments".data)
            (JsonVal.jstr "No feedback provided".data)))
      { grade := jsNumber coerce grade, feedback := feedback,
        strengths := some (jsOrV (getField parsedResult "strengths".data) (JsonVal.jstr [])),
        improvements := some (jsOrV (getField parsedResult "improvements".data)
          (jsOrV (getField parsedResult "areas_for_improvement".data) (JsonVal.jstr []))),
        final_marks := jsNumber coerce grade, review := feedback }

/-- The grade field synonyms probed by `gradeSubmission`, in probing order. -/
def gradeFields : List Str :=
  ["grade".data, "marks".data, "final_marks".data, "score".data]

/-- Numeric payload of a JSON value, when it is a number. -/
def numVal : JsonVal → Option Rat
  | JsonVal.jnum q => some q
  | _ => none

/-- Amended-claim selection: the first field value that is present and truthy
(a nonzero number), else 0.  This is what the `||` chain computes on numeric
fields. -/
def firstTruthyNum : List (Option Rat) → Rat
  | [] => 0
  | none :: rest => firstTruthyNum rest
  | some q :: rest => if q = 0 then firstTruthyNum rest else q

/-- Claim-as-stated selection ("the numeric grade taken from the first present
of the fields grade, marks, final_marks, score, 0 if none present"), written
from the specification's words for comparison with the code's behavior. -/
def firstPresentNum : List (Option JsonVal) → Rat
  | [] => 0
  | none :: rest => firstPresentNum rest
  | some v :: _ => (numVal v).getD 0

/-! ## OCR router and pipelines (`extractText`, `extractTextFromPDF`,
`extractTextFromImage` in the AI service module) -/

/-- The `name`/`type`/`size` triple of a browser `File` object. -/
structure FileInfo where
  name : Str
  ftype : Str
  size : Nat
deriving Repr

/-- Successful extraction result: the recognized text, the OCR confidence
(present only on the image path) and the file metadata echo. -/
structure ExtractOk where
  extracted_text : Str
  confidence : Option Rat
  file_info : FileInfo

/-- `supportedImageTypes` from `extractText`. -/
def supportedImageTypes : List Str :=
  ["image/jpeg".data, "image/jpg".data, "image/png".data, "image/gif".data, "image/webp".data]

/-- `supportedDocumentTypes` from `extractText`. -/
def supportedDocumentTypes : List Str := ["application/pdf".data]

/-- `allSupportedTypes = [...supportedImageTypes, ...supportedDocumentTypes]`. -/
def allSupportedTypes : List Str := supportedImageTypes ++ supportedDocumentTypes

/-- The unsupported-file-type error message of `extractText`. -/
def unsupportedMsg (t : Str) : Str :=
  "Unsupported file type: ".data ++ t ++
    ". Please use JPEG, PNG, GIF, WebP images or PDF documents.".data

/-- 10 MiB size cap of the image path. -/
def maxSize : Nat := 10 * 1024 * 1024

/-- The too-large error message of `extractTextFromImage`. -/
def tooLargeMsg : Str := "File size too large. Please use files smaller than 10MB.".data

/-- The empty-extraction error message of the image path. -/
def imgNoTextMsg : Str :=
  "No text was extracted from the image. Please ensure the image contains readable text.".data

/-- The empty-extraction error message of the PDF path. -/
def pdfNoTextMsg : Str :=
  "No text was extracted from the PDF. Please ensure the document contains readable text.".data

/-- The error-translation chain of `extractTextFromImage`'s `catch` block. -/
def mapImageError (e : Str) : Str :=
  if containsSub e "timeout".data then
    "OCR processing timed out. Please try again with a smaller file.".data
  else if containsSub e "worker".data then
    "OCR worker failed to initialize. Please refresh the page and try again.".data
  else if containsSub e "invalid".data || containsSub e "corrupt".data then
    "Invalid or corrupted image file. Please try a different image.".data
  else if List.isPrefixOf "Unsupported file type".data e ||
      List.isPrefixOf "File size too large".data e ||
      List.isPrefixOf "No text was extracted".data e then e
  else
    "Failed to extract text from the image: ".data ++
      (if e = [] then "Unknown error occurred".data else e) ++
      ". Please try with a different image.".data

/-- The error-translation of `extractTextFromPDF`'s `catch` block. -/
def mapPdfError (e : Str) : Str :=
  if containsSub e "Invalid PDF".data then
    "Invalid or corrupted PDF file. Please try a different document.".data
  else "Failed to extract text from PDF: ".data ++ e

/-- Result of the image path together with how many times Tesseract recognition
was invoked. -/
structure ImageTrace where
  result : Except Str ExtractOk
  recognizeCalls : Nat

/-- Shallow embedding of `extractTextFromImage`.  The `recognize` oracle holds
the outcome of the single Tesseract call: an error, or recognized text with a
confidence value.  The size gate runs before recognition; blank recognized text
raises the empty-extraction error, which passes through the catch chain
unchanged (it starts with "No text was extracted"). -/
def extractTextFromImage (recognize : Except Str (Str × Rat)) (file : FileInfo) : ImageTrace :=
  if file.size > maxSize then ⟨Except.error tooLargeMsg, 0⟩
  else
    match recognize with
    | Except.error e => ⟨Except.error (mapImageError e), 1⟩
    | Except.ok (text, confidence) =>
      if trimL text = [] then ⟨Except.error (mapImageError imgNoTextMsg), 1⟩
      else ⟨Except.ok ⟨trimL text, some confidence, file⟩, 1⟩

/-- Decimal digits of a page number, for the page delimiter. -/
def natStr (n : Nat) : Str := (Nat.repr n).data

/-- The per-page delimiter `\n--- Page N ---\n` of the PDF path. -/
def pageDelim (n : Nat) : Str :=
  "\n--- Page ".data ++ natStr n ++ " ---\n".data

/-- The page-accumulation loop of `extractTextFromPDF`, starting at page `n`:
a page contributes `pageDelim n ++ trimmed text ++ "\n"` only when its trimmed
recognized text is nonempty. -/
def pdfConcat : Nat → List Str → Str
  | _, [] => []
  | n, t :: rest =>
    (if (trimL t).isEmpty then [] else pageDelim n ++ trimL t ++ "\n".data) ++
      pdfConcat (n + 1) rest

/-- Specification-side description of the PDF concatenation: number the pages
from 1, keep the non-blank ones, and join each as delimiter-plus-trimmed-text.
Used to compare the loop above against the specification's wording. -/
def pdfSpecJoin (pages : List Str) : Str :=
  ((List.enumFrom 1 pages).filter (fun pr => !(trimL pr.2).isEmpty)).foldr
    (fun pr acc => pageDelim pr.1 ++ trimL pr.2 ++ "\n".data ++ acc) []

/-- Shallow embedding of `extractTextFromPDF`.  The `pdfPages` oracle holds the
outcome of PDF parsing plus per-page OCR: an error, or the list of recognized
page texts in page order 1..numPages.  Any error thrown inside the `try` block
— including the internal empty-extraction throw — is translated by the `catch`
block (`Invalid PDF` detection, otherwise a `Failed to extract text from PDF:`
wrapper). -/
def extractTextFromPDF (pdfPages : Except Str (List Str)) (file : FileInfo) :
    Except Str ExtractOk :=
  match pdfPages with
  | Except.error e => Except.error (mapPdfError e)
  | Except.ok pages =>
    let allText := pdfConcat 1 pages
    if trimL allText = [] then Except.error (mapPdfError pdfNoTextMsg)
    else Except.ok ⟨trimL allText, none, file⟩

/-- Shallow embedding of `extractText`: validate the declared content type
against the supported sets, then dispatch to the PDF or image pipeline. -/
def extractText (pdfPages : Except Str (List Str)) (recognize : Except Str (Str × Rat))
    (file : FileInfo) : Except Str ExtractOk :=
  if !(includes allSupportedTypes file.ftype) then Except.error (unsupportedMsg file.ftype)
  else if includes supportedDocumentTypes file.ftype then extractTextFromPDF pdfPages file
  else (extractTextFromImage recognize file).result

/-! ## Upload validation (`validateSubmissionFile` in the storage utilities) -/

/-- Split on the dot character, as `String.prototype.split('.')`. -/
def splitDot : Str → List Str
  | [] => [[]]
  | c :: rest =>
    if c = '.' then [] :: splitDot rest
    else
      match splitDot rest with
      | [] => [[c]]
      | g :: gs => (c :: g) :: gs

/-- Last element of a split, as `Array.prototype.pop()` on a nonempty array. -/
def lastOf : List Str → Str
  | [] => []
  | [x] => x
  | _ :: xs => lastOf xs

/-- The extension computation `file.name.split('.').pop()?.toLowerCase() || ''`. -/
def extOf (name : Str) : Str := lowerStr (lastOf (splitDot name))

/-- `allowedTypes` of `validateSubmissionFile`. -/
def subAllowedTypes : List Str :=
  ["application/pdf".data, "image/png".data, "image/jpeg".data, "image/jpg".data,
   "image/gif".data, "image/webp".data, "image/avif".data]

/-- The extension allow-list of `validateSubmissionFile`. -/
def subAllowedExts : List Str :=
  ["pdf".data, "png".data, "jpg".data, "jpeg".data, "gif".data, "webp".data, "avif".data]

/-- The size error message of `validateSubmissionFile`. -/
def sizeErrMsg : Str := "File size exceeds 10MB limit".data

/-- The type error message of `validateSubmissionFile`. -/
def typeErrMsg : Str := "File type not supported. Use PDF or images.".data

/-- The `{ valid, error? }` record returned by the validators. -/
structure ValidationResult where
  valid : Bool
  err : Option Str
deriving DecidableEq, Repr

/-- Shallow embedding of `validateSubmissionFile`: a 10 MiB size cap for every
file, then acceptance by declared MIME type or by lowercased filename extension. -/
def validateSubmissionFile (file : FileInfo) : ValidationResult :=
  if file.size > 10 * 1024 * 1024 then ⟨false, some sizeErrMsg⟩
  else
    let isValidType :=
      includes subAllowedTypes file.ftype || includes subAllowedExts (extOf file.name)
    if !isValidType then ⟨false, some typeErrMsg⟩
    else ⟨true, none⟩

/-! ## Meeting lifecycle client (`ClassMeeting` component, embedded-iframe
variant).  Only the local view state the claims speak about is modelled:
`activeMeeting` and `showMeeting`.  Toast notifications and the optional
`onClose` callback are elided. -/

/-- Local view state of the `ClassMeeting` component. -/
structure MeetingState where
  activeMeeting : Option Nat
  showMeeting : Bool
deriving DecidableEq, Repr

/-- The cross-origin signal type the component listens for. -/
def meetingEndedType : Str := "MEETING_ENDED".data

/-- Shallow embedding of the component's `handleMessage` listener: a message
whose `type` is `MEETING_ENDED` clears the active meeting and closes the
embedded view synchronously (no backend call, no poll); any other message is
ignored. -/
def handleMessage (msgType : Str) (s : MeetingState) : MeetingState :=
  if msgType = meetingEndedType then ⟨none, false⟩ else s

/-- Shallow embedding of the teacher's `handleEndMeeting` action: a no-op when
no meeting is active; otherwise the backend `endMeeting` call is attempted
(`endOk` oracle) and on success the active meeting is cleared and the embedded
view closed; on backend failure the state is left unchanged. -/
def handleEndMeeting (endOk : Bool) (s : MeetingState) : MeetingState :=
  match s.activeMeeting with
  | none => s
  | some _ => if endOk then ⟨none, false⟩ else s

/-! ## Concrete oracle instances used by witnesses and counterexamples -/

/-- The parsed object for the grading counterexample input:
`JSON.parse` of the text below yields an object with a present-but-zero
`grade` field and a nonzero `marks` field. -/
def cxObj : JsonVal :=
  JsonVal.jobj [("grade".data, JsonVal.jnum 0), ("marks".data, JsonVal.jnum 50),
    ("feedback".data, JsonVal.jstr "ok".data)]

/-- The provider text of the grading counterexample:
the JSON text `\x7b"grade":0,"marks":50,"feedback":"ok"\x7d`. -/
def cxText : Str := "\x7b\"grade\":0,\"marks\":50,\"feedback\":\"ok\"\x7d".data

/-- Models the JavaScript builtin `JSON.parse` on the single input the
counterexample uses (that JSON text parses to `cxObj`); every other input is
treated as a parse failure, which the counterexample never exercises. -/
def parseCX : Str → Option JsonVal := fun s => if s = cxText then some cxObj else none

/-- A parse oracle that always fails, exercising the degraded branch. -/
def parseNone : Str → Option JsonVal := fun _ => none

/-- A `Number`-coercion oracle; never reached by the concrete inputs used here
(their selected grade values are JSON numbers, coerced concretely). -/
def coerceCX : JsonVal → Option Rat := fun _ => none

/-! ## Helper lemmas -/

/-- A list is a Boolean prefix of itself followed by anything. -/
theorem isPrefixOf_self_append (p l : Str) : List.isPrefixOf p (p ++ l) = true := by
  induction p with
  | nil => simp [List.isPrefixOf]
  | cons c cs ih => simp [List.isPrefixOf, ih]

/-- A list is a Boolean suffix of anything followed by itself. -/
theorem isSuffixOf_self_append (s l : Str) : List.isSuffixOf s (l ++ s) = true := by
  unfold List.isSuffixOf
  rw [List.reverse_append]
  exact isPrefixOf_self_append s.reverse l.reverse

/-- Cancelling a common prefix under `List.isPrefixOf`. -/
theorem isPrefixOf_append_cancel (a b c : Str) :
    List.isPrefixOf (a ++ b) (a ++ c) = List.isPrefixOf b c := by
  induction a with
  | nil => rfl
  | cons x xs ih => simpa [List.isPrefixOf] using ih

/-- Left-trimming keeps a string whose trimmed head block is itself nonempty. -/
theorem trimLeftL_append_keep (l r : Str) (h : trimLeftL l = l) (hne : l ≠ []) :
    trimLeftL (l ++ r) = l ++ r := by
  unfold trimLeftL at *
  rw [List.dropWhile_append, h, if_neg (by simpa [List.isEmpty_iff] using hne)]

/-- Right-trimming keeps a string whose trimmed tail block is itself nonempty. -/
theorem trimRightL_append_keep (l r : Str) (h : trimRightL r = r) (hne : r ≠ []) :
    trimRightL (l ++ r) = l ++ r := by
  unfold trimRightL at *
  have hr : r.reverse.dropWhile isWS = r.reverse := by
    have := congrArg List.reverse h
    simpa using this
  rw [List.reverse_append, List.dropWhile_append, hr,
    if_neg (by simpa [List.isEmpty_iff] using hne), List.reverse_append,
    List.reverse_reverse, List.reverse_reverse]

/-- A string trims to empty exactly when all its characters are whitespace. -/
theorem trimL_eq_nil_iff (l : Str) : trimL l = [] ↔ ∀ c ∈ l, isWS c = true := by
  unfold trimL trimRightL trimLeftL
  rw [List.reverse_eq_nil_iff, List.dropWhile_eq_nil_iff]
  constructor
  · intro h c hc
    have hsplit := List.takeWhile_append_dropWhile (p := isWS) (l := l)
    rw [← hsplit] at hc
    rcases List.mem_append.mp hc with h1 | h2
    · exact List.mem_takeWhile_imp h1
    · exact h c (List.mem_reverse.mpr h2)
  · intro h c hc
    exact h c ((List.dropWhile_suffix isWS).subset (List.mem_reverse.mp hc))

/-- Fence stripping on a response wrapped in a leading "```json" and a trailing
"```": the remainder is the trimmed body. -/
theorem cleanFences_json (body : Str) :
    cleanFences (ticksJson ++ body ++ ticks) = trimL body := by
  have h0 : trimL (ticksJson ++ body ++ ticks) = ticksJson ++ body ++ ticks := by
    unfold trimL
    rw [List.append_assoc, trimLeftL_append_keep _ _ (by decide) (by decide),
      ← List.append_assoc, trimRightL_append_keep _ _ (by decide) (by decide)]
  have hpre : List.isPrefixOf ticksJson (ticksJson ++ body ++ ticks) = true := by
    rw [List.append_assoc]; exact isPrefixOf_self_append _ _
  have hdrop : (ticksJson ++ body ++ ticks).drop 7 = body ++ ticks := by
    rw [List.append_assoc]
    exact List.drop_left' (by decide)
  have hsuf : List.isSuffixOf ticks (body ++ ticks) = true := isSuffixOf_self_append _ _
  have htake : (body ++ ticks).take ((body ++ ticks).length - 3) = body := by
    have hl : (body ++ ticks).length - 3 = body.length := by
      have h3 : ticks.length = 3 := by decide
      simp [List.length_append, h3]
    rw [hl]
    exact List.take_left body ticks
  simp only [cleanFences, h0, hpre, if_true, hdrop, hsuf, htake]

/-- Fence stripping on a response wrapped in bare leading and trailing "```"
fences (the body not continuing into a `json` language tag): the remainder is
the trimmed body. -/
theorem cleanFences_bare (body : Str)
    (h : List.isPrefixOf "json".data (body ++ ticks) = false) :
    cleanFences (ticks ++ body ++ ticks) = trimL body := by
  have h0 : trimL (ticks ++ body ++ ticks) = ticks ++ body ++ ticks := by
    unfold trimL
    rw [List.append_assoc, trimLeftL_append_keep _ _ (by decide) (by decide),
      ← List.append_assoc, trimRightL_append_keep _ _ (by decide) (by decide)]
  have hpre1 : List.isPrefixOf ticksJson (ticks ++ body ++ ticks) = false := by
    have hj : ticksJson = ticks ++ "json".data := by decide
    rw [hj, List.append_assoc, isPrefixOf_append_cancel]
    exact h
  have hpre2 : List.isPrefixOf ticks (ticks ++ body ++ ticks) = true := by
    rw [List.append_assoc]; exact isPrefixOf_self_append _ _
  have hdrop : (ticks ++ body ++ ticks).drop 3 = body ++ ticks := by
    rw [List.append_assoc]
    exact List.drop_left' (by decide)
  have hsuf : List.isSuffixOf ticks (body ++ ticks) = true := isSuffixOf_self_append _ _
  have htake : (body ++ ticks).take ((body ++ ticks).length - 3) = body := by
    have hl : (body ++ ticks).length - 3 = body.length := by
      have h3 : ticks.length = 3 := by decide
      simp [List.length_append, h3]
    rw [hl]
    exact List.take_left body ticks
  simp only [cleanFences, h0, hpre1, hpre2, Bool.false_eq_true, if_false, if_true,
    hdrop, hsuf, htake]

/-! ## Claims about the fallback orchestrator -/

/-- C1: when both providers fail, a quota-classified Gemini error surfaces a
combined error containing both providers' messages, while a non-quota-classified
Gemini error surfaces exactly the original Gemini error. -/
theorem generateWithFallback_both_fail (gErr qErr : Str) :
    (isQuotaError gErr = true →
      (generateWithFallback (Except.error gErr) (Except.error qErr)).result =
          Except.error (bothFailedMsg gErr qErr) ∧
        containsSub (bothFailedMsg gErr qErr) gErr = true ∧
        containsSub (bothFailedMsg gErr qErr) qErr = true) ∧
    (isQuotaError gErr = false →
      (generateWithFallback (Except.error gErr) (Except.error qErr)).result =
          Except.error gErr) := by
  constructor
  · intro h
    refine ⟨by simp [generateWithFallback, h], ?_, ?_⟩
    · apply decide_eq_true
      exact ⟨"Both AI providers failed. Gemini: ".data, ", Groq: ".data ++ qErr,
        by simp [bothFailedMsg]⟩
    · apply decide_eq_true
      exact ⟨"Both AI providers failed. Gemini: ".data ++ gErr ++ ", Groq: ".data, [],
        by simp [bothFailedMsg]⟩
  · intro h
    simp [generateWithFallback, h]

/-- Witness for C1 at a concrete quota-classified dual failure. -/
theorem generateWithFallback_both_fail_witness :
    (generateWithFallback (Except.error "quota exceeded".data)
        (Except.error "Groq API error: 500 - boom".data)).result =
      Except.error (bothFailedMsg "quota exceeded".data "Groq API error: 500 - boom".data) :=
  ((generateWithFallback_both_fail "quota exceeded".data
    "Groq API error: 500 - boom".data).1 (by decide)).1

/-- C2: when Gemini succeeds, its text is returned unmodified and Groq is never
invoked. -/
theorem generateWithFallback_primary_success (t : Str) (groq : Except Str Str) :
    (generateWithFallback (Except.ok t) groq).result = Except.ok t ∧
    (generateWithFallback (Except.ok t) groq).groqCalls = 0 :=
  ⟨rfl, rfl⟩

/-- C3: whenever Gemini fails, Groq is attempted exactly once — regardless of
the quota classification — and a Groq success is returned; each provider is
attempted at most once in any call. -/
theorem generateWithFallback_fallback_once (gErr t qErr : Str) :
    (generateWithFallback (Except.error gErr) (Except.ok t)).result = Except.ok t ∧
    (generateWithFallback (Except.error gErr) (Except.ok t)).groqCalls = 1 ∧
    (generateWithFallback (Except.error gErr) (Except.error qErr)).groqCalls = 1 ∧
    ∀ a b : Except Str Str,
      (generateWithFallback a b).geminiCalls = 1 ∧
        (generateWithFallback a b).groqCalls ≤ 1 := by
  refine ⟨rfl, rfl, ?_, ?_⟩
  · simp only [generateWithFallback]
    split <;> rfl
  · intro a b
    cases a with
    | ok v => exact ⟨rfl, by simp [generateWithFallback]⟩
    | error e =>
      cases b with
      | ok v => exact ⟨rfl, by simp [generateWithFallback]⟩
      | error e' =>
        simp only [generateWithFallback]
        constructor
        · split <;> rfl
        · split <;> simp

/-! ## Claims about grading-response normalization -/

/-- The JavaScript `||` chain over field values that are numbers when present
computes the first present nonzero value (through `Number` coercion). -/
theorem jsOr_chain_num (coerce : JsonVal → Option Rat) :
    ∀ l : List (Option JsonVal),
      (∀ x ∈ l, ∀ v, x = some v → ∃ q, v = JsonVal.jnum q) →
      jsNumber coerce (l.foldr jsOrV (JsonVal.jnum 0)) =
        some (firstTruthyNum (l.map fun x => x.bind numVal)) := by
  intro l
  induction l with
  | nil => intro _; simp [jsNumber, firstTruthyNum]
  | cons x rest ih =>
    intro h
    have hrest := ih fun y hy => h y (List.mem_cons_of_mem x hy)
    cases x with
    | none => simpa [jsOrV, firstTruthyNum] using hrest
    | some v =>
      obtain ⟨q, rfl⟩ := h (some v) (List.mem_cons_self _ _) v rfl
      by_cases hq : q = 0
      · subst hq
        simpa [jsOrV, truthy, firstTruthyNum, numVal] using hrest
      · simp [jsOrV, truthy, hq, firstTruthyNum, numVal, jsNumber]

/-- The concrete four-field grade chain of `gradeSubmission`, on a parsed value
whose grade-synonym fields (when present) hold numbers. -/
theorem grade_chain_select (coerce : JsonVal → Option Rat) (p : JsonVal)
    (hf : ∀ k ∈ gradeFields, ∀ v, getField p k = some v → ∃ q, v = JsonVal.jnum q) :
    jsNumber coerce (jsOrV (getField p "grade".data)
        (jsOrV (getField p "marks".data)
          (jsOrV (getField p "final_marks".data)
            (jsOrV (getField p "score".data) (JsonVal.jnum 0))))) =
      some (firstTruthyNum (gradeFields.map fun k => (getField p k).bind numVal)) := by
  have h := jsOr_chain_num coerce
    [getField p "grade".data, getField p "marks".data,
     getField p "final_marks".data, getField p "score".data] ?_
  · simpa [gradeFields] using h
  · intro x hx v hv
    simp only [List.mem_cons, List.not_mem_nil, or_false] at hx
    rcases hx with rfl | rfl | rfl | rfl
    · exact hf "grade".data (by simp [gradeFields]) v hv
    · exact hf "marks".data (by simp [gradeFields]) v hv
    · exact hf "final_marks".data (by simp [gradeFields]) v hv
    · exact hf "score".data (by simp [gradeFields]) v hv

/-- A non-null test in Boolean form. -/
theorem isNull_eq_false_of_ne (p : JsonVal) (h : p ≠ JsonVal.jnull) :
    isNull p = false := by
  cases p <;> simp_all [isNull]

/-- C4 (amended): fence stripping behaves as stated; on parse failure
`gradeSubmission` degrades to grade 0 with the raw provider text as feedback;
on successful parse of an object whose grade-synonym fields hold numbers, the
grade is the first *truthy* (nonzero) value among `grade`, `marks`,
`final_marks`, `score` in that order — not the first *present* one — and 0
when none is present or all present ones are zero. -/
theorem gradeSubmission_normalization (parse : Str → Option JsonVal)
    (coerce : JsonVal → Option Rat) (t : Str) :
    (∀ body, cleanFences (ticksJson ++ body ++ ticks) = trimL body) ∧
    (parse (cleanFences t) = none →
      (gradeSubmission parse coerce t).grade = some 0 ∧
      (gradeSubmission parse coerce t).feedback = JsonVal.jstr t) ∧
    (∀ p, parse (cleanFences t) = some p → p ≠ JsonVal.jnull →
      (∀ k ∈ gradeFields, ∀ v, getField p k = some v → ∃ q, v = JsonVal.jnum q) →
      (gradeSubmission parse coerce t).grade =
        some (firstTruthyNum (gradeFields.map fun k => (getField p k).bind numVal))) := by
  refine ⟨cleanFences_json, fun h => ?_, fun p hp hnull hf => ?_⟩
  · simp [gradeSubmission, h, textFallbackResult]
  · simp only [gradeSubmission, hp, isNull_eq_false_of_ne p hnull, Bool.false_eq_true,
      if_false]
    exact grade_chain_select coerce p hf

/-- Witness for C4's amended theorem: a concrete fenced body, and a concrete
parse failure degrading to grade 0 with the raw text as feedback. -/
theorem gradeSubmission_normalization_witness :
    cleanFences (ticksJson ++ "x".data ++ ticks) = trimL "x".data ∧
    (gradeSubmission parseNone coerceCX "hi".data).grade = some 0 ∧
    (gradeSubmission parseNone coerceCX "hi".data).feedback = JsonVal.jstr "hi".data :=
  ⟨(gradeSubmission_normalization parseNone coerceCX "hi".data).1 "x".data,
   ((gradeSubmission_normalization parseNone coerceCX "hi".data).2.1 rfl).1,
   ((gradeSubmission_normalization parseNone coerceCX "hi".data).2.1 rfl).2⟩

/-- C4 counterexample: on the provider text
`\x7b"grade":0,"marks":50,"feedback":"ok"\x7d` — whose first present grade
field is `grade` with numeric value 0 — the code returns grade 50 (the `||`
chain skips the falsy 0), while the claim's first-present rule yields 0. -/
theorem gradeSubmission_first_present_cx :
    (gradeSubmission parseCX coerceCX cxText).grade = some 50 ∧
    firstPresentNum (gradeFields.map fun k => getField cxObj k) = 0 ∧
    (50 : Rat) ≠ 0 := by
  refine ⟨by decide, by decide, by norm_num⟩

/-! ## Claims about the OCR router and pipelines -/

/-- C5: a file whose declared content type is outside the supported image and
PDF sets fails with the unsupported-file-type error independently of the OCR
oracles (so before any OCR processing); a supported type dispatches to the PDF
or image pipeline according to the type. -/
theorem extractText_dispatch (pdfPages : Except Str (List Str))
    (recognize : Except Str (Str × Rat)) (file : FileInfo) :
    (file.ftype ∉ allSupportedTypes →
      extractText pdfPages recognize file = Except.error (unsupportedMsg file.ftype)) ∧
    (file.ftype ∈ supportedDocumentTypes →
      extractText pdfPages recognize file = extractTextFromPDF pdfPages file) ∧
    (file.ftype ∈ supportedImageTypes →
      extractText pdfPages recognize file = (extractTextFromImage recognize file).result) := by
  refine ⟨fun h => ?_, fun h => ?_, fun h => ?_⟩
  · have h1 : includes allSupportedTypes file.ftype = false := decide_eq_false h
    simp [extractText, h1]
  · have h1 : includes allSupportedTypes file.ftype = true :=
      decide_eq_true (List.mem_append.mpr (Or.inr h))
    have h2 : includes supportedDocumentTypes file.ftype = true := decide_eq_true h
    simp [extractText, h1, h2]
  · have h1 : includes allSupportedTypes file.ftype = true :=
      decide_eq_true (List.mem_append.mpr (Or.inl h))
    have h2 : includes supportedDocumentTypes file.ftype = false := by
      apply decide_eq_false
      intro hmem
      simp only [supportedDocumentTypes, List.mem_singleton] at hmem
      rw [hmem] at h
      exact absurd h (by decide)
    simp [extractText, h1, h2]

/-- Witness for C5 at a concrete unsupported type. -/
theorem extractText_dispatch_witness :
    extractText (Except.ok []) (Except.error [])
        ⟨"a.txt".data, "text/plain".data, 5⟩ =
      Except.error (unsupportedMsg "text/plain".data) :=
  (extractText_dispatch (Except.ok []) (Except.error [])
    ⟨"a.txt".data, "text/plain".data, 5⟩).1 (by decide)

/-- C6: an image over 10 MiB fails with the too-large error before recognition
runs (zero recognition calls); at or under the cap, recognition is attempted
exactly once. -/
theorem extractTextFromImage_size_gate (recognize : Except Str (Str × Rat))
    (file : FileInfo) :
    (file.size > 10 * 1024 * 1024 →
      extractTextFromImage recognize file = ⟨Except.error tooLargeMsg, 0⟩) ∧
    (file.size ≤ 10 * 1024 * 1024 →
      (extractTextFromImage recognize file).recognizeCalls = 1) := by
  constructor
  · intro h
    unfold extractTextFromImage
    rw [if_pos (by simpa [maxSize] using h)]
  · intro h
    unfold extractTextFromImage
    rw [if_neg (by simp only [maxSize]; omega)]
    rcases recognize with e | ⟨text, conf⟩
    · rfl
    · dsimp only
      split <;> rfl

/-- Witness for C6 at a concrete over-limit file and a concrete under-limit file. -/
theorem extractTextFromImage_size_gate_witness :
    extractTextFromImage (Except.ok ("hello".data, 95))
        ⟨"scan.png".data, "image/png".data, 11534336⟩ =
      ⟨Except.error tooLargeMsg, 0⟩ ∧
    (extractTextFromImage (Except.ok ("hello".data, 95))
        ⟨"scan.png".data, "image/png".data, 9437184⟩).recognizeCalls = 1 :=
  ⟨(extractTextFromImage_size_gate (Except.ok ("hello".data, 95))
      ⟨"scan.png".data, "image/png".data, 11534336⟩).1 (by norm_num),
   (extractTextFromImage_size_gate (Except.ok ("hello".data, 95))
      ⟨"scan.png".data, "image/png".data, 9437184⟩).2 (by norm_num)⟩

/-- The page-accumulation loop equals the specification-side join: pages are
numbered from the given start index in order, blank pages are skipped, and each
kept page is rendered as its delimiter followed by its trimmed text. -/
theorem pdfConcat_eq_spec (n : Nat) (pages : List Str) :
    pdfConcat n pages =
      ((List.enumFrom n pages).filter (fun pr => !(trimL pr.2).isEmpty)).foldr
        (fun pr acc => pageDelim pr.1 ++ trimL pr.2 ++ "\n".data ++ acc) [] := by
  induction pages generalizing n with
  | nil => rfl
  | cons t rest ih =>
    simp only [pdfConcat, List.enumFrom_cons, List.filter_cons]
    by_cases hb : (trimL t).isEmpty
    · simp [hb, ih (n + 1)]
    · simp [hb, ih (n + 1), List.append_assoc]

/-- All-blank pages accumulate to the empty string. -/
theorem pdfConcat_blank (n : Nat) (pages : List Str)
    (h : ∀ t ∈ pages, trimL t = []) : pdfConcat n pages = [] := by
  induction pages generalizing n with
  | nil => rfl
  | cons t rest ih =>
    have ht : (trimL t).isEmpty = true := by
      simp [List.isEmpty_iff, h t (List.mem_cons_self _ _)]
    simp only [pdfConcat, ht, if_true, List.nil_append]
    exact ih (n + 1) fun u hu => h u (List.mem_cons_of_mem t hu)

/-- If some page is non-blank, the accumulated string contains a non-whitespace
character (a dash of the page delimiter, or a character of the page text). -/
theorem pdfConcat_has_nonWS (n : Nat) (pages : List Str)
    (h : ∃ t ∈ pages, trimL t ≠ []) :
    ∃ c ∈ pdfConcat n pages, isWS c = false := by
  induction pages generalizing n with
  | nil => simp at h
  | cons t rest ih =>
    by_cases hb : (trimL t).isEmpty
    · have hblank : trimL t = [] := by simpa [List.isEmpty_iff] using hb
      obtain ⟨u, hu, hune⟩ := h
      rcases List.mem_cons.mp hu with rfl | humem
      · exact absurd hblank hune
      · obtain ⟨c, hc, hcws⟩ := ih (n + 1) ⟨u, humem, hune⟩
        refine ⟨c, ?_, hcws⟩
        simp only [pdfConcat, hb, if_true, List.nil_append]
        exact hc
    · refine ⟨'-', ?_, by decide⟩
      simp only [pdfConcat, hb, Bool.false_eq_true, if_false]
      apply List.mem_append.mpr
      apply Or.inl
      apply List.mem_append.mpr
      apply Or.inl
      apply List.mem_append.mpr
      apply Or.inl
      unfold pageDelim
      apply List.mem_append.mpr
      apply Or.inl
      apply List.mem_append.mpr
      apply Or.inl
      decide

set_option maxRecDepth 8192 in
/-- C7: the PDF path processes pages in order from 1, keeps only pages whose
trimmed text is non-blank, renders each kept page as a `--- Page N ---`
delimiter followed by its text, returns the whole concatenation trimmed with no
confidence value, and fails with the empty-extraction error when every page is
blank. -/
theorem extractTextFromPDF_spec (pages : List Str) (file : FileInfo) :
    pdfConcat 1 pages = pdfSpecJoin pages ∧
    ((∀ t ∈ pages, trimL t = []) →
      ∃ e, extractTextFromPDF (Except.ok pages) file = Except.error e ∧
        containsSub e pdfNoTextMsg = true) ∧
    ((∃ t ∈ pages, trimL t ≠ []) →
      ∃ r, extractTextFromPDF (Except.ok pages) file = Except.ok r ∧
        r.confidence = none ∧ r.extracted_text = trimL (pdfSpecJoin pages) ∧
        r.file_info = file) := by
  refine ⟨by simpa [pdfSpecJoin] using pdfConcat_eq_spec 1 pages, fun h => ?_, fun h => ?_⟩
  · refine ⟨mapPdfError pdfNoTextMsg, ?_, ?_⟩
    · simp [extractTextFromPDF, pdfConcat_blank 1 pages h, trimL, trimLeftL, trimRightL]
    · have hinv : containsSub pdfNoTextMsg "Invalid PDF".data = false := by decide
      have hmap : mapPdfError pdfNoTextMsg =
          "Failed to extract text from PDF: ".data ++ pdfNoTextMsg := by
        simp [mapPdfError, hinv]
      rw [hmap]
      apply decide_eq_true
      exact ⟨"Failed to extract text from PDF: ".data, [], by simp⟩
  · have hne : trimL (pdfConcat 1 pages) ≠ [] := by
      obtain ⟨c, hc, hcws⟩ := pdfConcat_has_nonWS 1 pages h
      intro heq
      have := (trimL_eq_nil_iff (pdfConcat 1 pages)).mp heq c hc
      rw [hcws] at this
      exact Bool.false_ne_true this
    refine ⟨⟨trimL (pdfConcat 1 pages), none, file⟩, ?_, rfl, ?_, rfl⟩
    · simp [extractTextFromPDF, hne]
    · simp only
      rw [pdfConcat_eq_spec 1 pages]
      rfl

/-- Witness for C7 at a one-page PDF with recognized text. -/
theorem extractTextFromPDF_spec_witness :
    ∃ r, extractTextFromPDF (Except.ok ["hello".data])
        ⟨"doc.pdf".data, "application/pdf".data, 100⟩ = Except.ok r ∧
      r.confidence = none ∧ r.extracted_text = trimL (pdfSpecJoin ["hello".data]) ∧
      r.file_info = ⟨"doc.pdf".data, "application/pdf".data, 100⟩ :=
  (extractTextFromPDF_spec ["hello".data]
    ⟨"doc.pdf".data, "application/pdf".data, 100⟩).2.2
    ⟨"hello".data, by simp, by decide⟩

/-! ## Claims about upload validation and the meeting client -/

/-- C8: `validateSubmissionFile` rejects any file over 10 MiB with the size
error regardless of its type, and accepts a 9 MiB `image/png` file whatever its
name; in particular an 11 MiB `image/png` file is rejected. -/
theorem validateSubmissionFile_size_bounds (file : FileInfo) (nm : Str) :
    (file.size > 10 * 1024 * 1024 →
      validateSubmissionFile file = ⟨false, some sizeErrMsg⟩) ∧
    validateSubmissionFile ⟨nm, "image/png".data, 9 * 1024 * 1024⟩ = ⟨true, none⟩ ∧
    validateSubmissionFile ⟨nm, "image/png".data, 11 * 1024 * 1024⟩ =
      ⟨false, some sizeErrMsg⟩ := by
  refine ⟨fun h => ?_, ?_, ?_⟩
  · unfold validateSubmissionFile
    rw [if_pos h]
  · unfold validateSubmissionFile
    rw [if_neg (by norm_num)]
    have ht : includes subAllowedTypes "image/png".data = true := by decide
    simp [ht]
  · unfold validateSubmissionFile
    rw [if_pos (by norm_num)]

/-- Witness for C8 at a concrete oversized, well-typed file. -/
theorem validateSubmissionFile_size_witness :
    validateSubmissionFile ⟨"notes.pdf".data, "application/pdf".data, 11534336⟩ =
      ⟨false, some sizeErrMsg⟩ :=
  (validateSubmissionFile_size_bounds
    ⟨"notes.pdf".data, "application/pdf".data, 11534336⟩ []).1 (by norm_num)

/-- C9: while a meeting is active, receiving a `MEETING_ENDED` message clears
the active meeting and closes the embedded view purely locally (the handler is
a pure state transition consulting no poll), and the resulting state equals the
one produced by a successful local teacher end-meeting action. -/
theorem handleMessage_meeting_ended (s : MeetingState) (m : Nat)
    (h : s.activeMeeting = some m) :
    handleMessage meetingEndedType s = ⟨none, false⟩ ∧
    handleMessage meetingEndedType s = handleEndMeeting true s := by
  have h1 : handleMessage meetingEndedType s = ⟨none, false⟩ := by
    simp [handleMessage]
  refine ⟨h1, ?_⟩
  rw [h1]
  unfold handleEndMeeting
  rw [h]
  simp

/-- Witness for C9 at a concrete in-progress state. -/
theorem handleMessage_meeting_ended_witness :
    handleMessage meetingEndedType ⟨some 1, true⟩ = ⟨none, false⟩ ∧
    handleMessage meetingEndedType ⟨some 1, true⟩ = handleEndMeeting true ⟨some 1, true⟩ :=
  handleMessage_meeting_ended ⟨some 1, true⟩ 1 rfl

/-- `splitDot` never returns an empty list of groups. -/
theorem splitDot_ne_nil (l : Str) : splitDot l ≠ [] := by
  cases l with
  | nil => simp [splitDot]
  | cons c rest =>
    unfold splitDot
    split
    · simp
    · split <;> simp

/-- Splitting a dot-free string yields the single group holding the string. -/
theorem splitDot_no_dot (l : Str) (h : '.' ∉ l) : splitDot l = [l] := by
  induction l with
  | nil => rfl
  | cons c rest ih =>
    have hc : ¬ c = '.' := fun hcc => h (hcc ▸ List.mem_cons_self _ _)
    have hrest : '.' ∉ rest := fun hm => h (List.mem_cons_of_mem _ hm)
    unfold splitDot
    rw [if_neg hc, ih hrest]

/-- `lastOf` skips a head group when more groups follow. -/
theorem lastOf_cons_of_ne_nil (x : Str) (xs : List Str) (h : xs ≠ []) :
    lastOf (x :: xs) = lastOf xs := by
  cases xs with
  | nil => exact absurd rfl h
  | cons y ys => rfl

/-- A string containing a dot splits into at least two groups. -/
theorem splitDot_append_two_le (xs ys : Str) :
    2 ≤ (splitDot (xs ++ '.' :: ys)).length := by
  induction xs with
  | nil =>
    simp only [List.nil_append]
    unfold splitDot
    rw [if_pos rfl]
    have := List.length_pos.mpr (splitDot_ne_nil ys)
    simp only [List.length_cons]
    omega
  | cons c rest ih =>
    simp only [List.cons_append]
    unfold splitDot
    split
    · have := List.length_pos.mpr (splitDot_ne_nil (rest ++ '.' :: ys))
      simp only [List.length_cons]
      omega
    · cases hs : splitDot (rest ++ '.' :: ys) with
      | nil => exact absurd hs (splitDot_ne_nil _)
      | cons g gs =>
        rw [hs] at ih
        simp only [List.length_cons] at ih ⊢
        omega

/-- Unfolding equation of `splitDot` on a cons cell. -/
theorem splitDot_cons (c : Char) (rest : Str) :
    splitDot (c :: rest) =
      if c = '.' then [] :: splitDot rest
      else
        match splitDot rest with
        | [] => [[c]]
        | g :: gs => (c :: g) :: gs := rfl

/-- The last split group of `base ++ "." ++ e` is the last split group of `e`. -/
theorem lastOf_splitDot_append (xs ys : Str) :
    lastOf (splitDot (xs ++ '.' :: ys)) = lastOf (splitDot ys) := by
  induction xs with
  | nil =>
    rw [List.nil_append, splitDot_cons, if_pos rfl]
    exact lastOf_cons_of_ne_nil _ _ (splitDot_ne_nil ys)
  | cons c rest ih =>
    rw [List.cons_append, splitDot_cons]
    by_cases hc : c = '.'
    · rw [if_pos hc, lastOf_cons_of_ne_nil _ _ (splitDot_ne_nil _)]
      exact ih
    · rw [if_neg hc]
      cases hs : splitDot (rest ++ '.' :: ys) with
      | nil => exact absurd hs (splitDot_ne_nil _)
      | cons g gs =>
        have hgs : gs ≠ [] := by
          have h2 := splitDot_append_two_le rest ys
          rw [hs] at h2
          simp only [List.length_cons] at h2
          intro hnil
          rw [hnil] at h2
          simp at h2
        show lastOf ((c :: g) :: gs) = lastOf (splitDot ys)
        rw [lastOf_cons_of_ne_nil _ _ hgs]
        rw [hs, lastOf_cons_of_ne_nil _ _ hgs] at ih
        exact ih

/-- The computed extension of `base ++ "." ++ e` for dot-free `e` is the
lowercased `e`. -/
theorem extOf_append (base e : Str) (hdot : '.' ∉ e) :
    extOf (base ++ '.' :: e) = lowerStr e := by
  unfold extOf
  rw [lastOf_splitDot_append, splitDot_no_dot e hdot]
  rfl

/-- C10: a file at or under 10 MiB whose name ends in a dot followed by an
extension that lowercases into the allowed set is accepted, whatever its
declared MIME type. -/
theorem validateSubmissionFile_ext_accept (base e ftype : Str) (size : Nat)
    (hsize : size ≤ 10 * 1024 * 1024) (hdot : '.' ∉ e)
    (he : lowerStr e ∈ subAllowedExts) :
    validateSubmissionFile ⟨base ++ '.' :: e, ftype, size⟩ = ⟨true, none⟩ := by
  unfold validateSubmissionFile
  rw [if_neg (by simp only; omega)]
  have hext : includes subAllowedExts (extOf (base ++ '.' :: e)) = true := by
    rw [extOf_append base e hdot]
    exact decide_eq_true he
  simp [hext]

/-- Witness for C10 at a concrete file with an uppercase `.PDF` extension and
an empty declared MIME type. -/
theorem validateSubmissionFile_ext_witness :
    validateSubmissionFile ⟨"report".data ++ '.' :: "PDF".data, [], 4096⟩ =
      ⟨true, none⟩ :=
  validateSubmissionFile_ext_accept "report".data "PDF".data [] 4096
    (by norm_num) (by decide) (by decide)
